import Mathlib

/-!
# FirestorePOC: the transaction DAO over a document store

A shallow embedding of `DAO/TransactionDAO.go`, `models/transaction/transaction.go`,
`models/transaction/query.go` and `models/comparison/comparisons.go`.

The Firestore client library is an external collaborator.  Its documents are
modelled as field maps, the database as a finite map from document path to
field map, and every call the DAO makes on the client is recorded in a call
log, so that "performs no read" or "never flushes" are statements about that
log.  Errors are modelled by their messages.
-/

namespace FirestorePOC

/-! ## models/comparison/comparisons.go -/

namespace comparison

def OpEqual : String := "=="

def OpNotEqual : String := "!="

def OpLessThan : String := "<"

def OpLessThanOrEqual : String := "<="

def OpGreaterThan : String := ">"

def OpGreaterThanOrEqual : String := ">="

def OpIn : String := "in"

def OpNotIn : String := "not-in"

def OpArrayContains : String := "array-contains"

def OpArrayContainsAny : String := "array-contains-any"

end comparison

/-! ## Values, documents and the store -/

/-- Go `time.Time`, as a count of nanoseconds from the zero instant; `0` is the
zero value, the one `IsZero` accepts. -/
abbrev Time := Int

/-- The values this DAO reads from or writes to a document: strings, 64-bit
integers, timestamps and string arrays (a nil slice and an empty slice are
not told apart). -/
inductive Value where
  | str (s : String)
  | int (n : Int)
  | time (t : Time)
  | strs (l : List String)
  deriving DecidableEq, Repr

/-- A document's field map (`map[string]interface{}`), as an association list. -/
abbrev Fields := List (String × Value)

/-- A document path: collection and document ids alternating, as in
`Collection("Transactions").Doc(id).Collection("history").Doc(key)`. -/
abbrev DocPath := List String

/-- The database: a finite map from document path to field map. -/
abbrev Store := List (DocPath × Fields)

/-- The field map stored at a path, if a document exists there. -/
def Store.get (s : Store) (p : DocPath) : Option Fields :=
  s.lookup p

/-- A full overwrite (`Set` without merge): the document at `p` becomes `f`. -/
def Store.set (s : Store) (p : DocPath) (f : Fields) : Store :=
  (p, f) :: s.filter (fun e => !(e.1 == p))

/-! ## models/transaction/transaction.go -/

namespace transaction

/-- The `Model` struct (its field `Type` is written `Type_`).  Go `int` is taken
to be 64 bits wide. -/
structure Model where
  ID : String
  AcctID : String
  PostedTime : Time
  CardNumber : String
  OnlineService : List String
  Type_ : String
  Version : Int
  LastUpdated : Time
  deriving DecidableEq, Repr

/-- The zero value `transaction.Model{}`. -/
def Model.zero : Model :=
  { ID := "", AcctID := "", PostedTime := 0, CardNumber := "", OnlineService := [],
    Type_ := "", Version := 0, LastUpdated := 0 }

/-- The `Query` struct of `query.go`. -/
structure Query where
  AcctId : String
  Types : List String
  OnlineService : List String
  StartTime : String
  EndTime : String
  Limit : Int
  Offset : Int
  deriving DecidableEq, Repr

end transaction

open transaction

/-! ## How the client encodes a `Model` (the `firestore:"...,omitempty"` tags) -/

/-- One tagged struct field: present under its tag name unless empty. -/
def omitEmpty (key : String) (empty : Bool) (v : Value) : Fields :=
  if empty then [] else [(key, v)]

/-- The field map `Set(ref, model)` writes: each struct field under the name
its `firestore` tag gives, left out when it holds its zero value or an empty
slice (`omitempty`). -/
def modelFields (m : Model) : Fields :=
  omitEmpty "ID" (m.ID == "") (.str m.ID) ++
  omitEmpty "AcctId" (m.AcctID == "") (.str m.AcctID) ++
  omitEmpty "PostedTime" (m.PostedTime == 0) (.time m.PostedTime) ++
  omitEmpty "CardNumber" (m.CardNumber == "") (.str m.CardNumber) ++
  omitEmpty "OnlineService" m.OnlineService.isEmpty (.strs m.OnlineService) ++
  omitEmpty "Type" (m.Type_ == "") (.str m.Type_) ++
  omitEmpty "Version" (m.Version == 0) (.int m.Version) ++
  omitEmpty "LastUpdated" (m.LastUpdated == 0) (.time m.LastUpdated)

/-! ## DAO/TransactionDAO.go: constants -/

def transactionCollection : String := "Transactions"

def transactionFields : List String :=
  ["AcctID", "CardNumber", "OnlineService", "PostedTime", "Type"]

def accountIDField : String := "AcctID"

def typeField : String := "Type"

def postedTimeField : String := "PostedTime"

def onlineServiceField : String := "OnlineService"

def VersionField : String := "Version"

def LastUpdatedField : String := "LastUpdated"

def CardNumberField : String := "CardNumber"

def OnlineServiceField : String := "OnlineService"

/-! ## The calls the DAO makes on the client -/

/-- A store-level operation of a query: a `Where` filter or a `Limit`. -/
inductive QueryOp where
  | filter (field : String) (op : String) (value : Value)
  | limit (n : Int)
  | select (fields : List String)
  deriving DecidableEq, Repr

/-- One call on the Firestore client, as recorded in the call log. -/
inductive StoreCall where
  | docGet (ref : DocPath)
  | txGet (ref : DocPath)
  | txSetModel (ref : DocPath) (m : Model)
  | txSetMap (ref : DocPath) (data : Fields)
  | set (ref : DocPath) (m : Model)
  | query (ops : List QueryOp)
  | newBulkWriter
  | bulkSet (ref : DocPath) (m : Model)
  | bulkFlush
  deriving DecidableEq, Repr

/-- What a DAO method leaves behind: the value and error it returns, the calls
it made on the client, and the store afterwards. -/
structure Outcome (α : Type) where
  value : α
  err : Option String
  calls : List StoreCall
  store : Store

/-- `Collection("Transactions").Doc(id)`. -/
def mainDocRef (id : String) : DocPath :=
  [transactionCollection, id]

/-- `mainDocRef.Collection("history").Doc(key)`. -/
def historyDocRef (id key : String) : DocPath :=
  mainDocRef id ++ ["history", key]

/-! ## UpsertTransactionWithHistory -/

/-- A document snapshot: `fields` is `none` when the document does not exist
(`Exists()` is false). -/
structure DocumentSnapshot where
  ref : DocPath
  fields : Option Fields

def DocumentSnapshot.Exists (d : DocumentSnapshot) : Bool :=
  d.fields.isSome

/-- `Data()`: the field map, nil for a missing document. -/
def DocumentSnapshot.Data (d : DocumentSnapshot) : Fields :=
  d.fields.getD []

/-- The store contract for a transactional read, `getDocument -> Document |
NotFound`: a missing document is reported as a NotFound error. -/
def txGet (s : Store) (ref : DocPath) : Except String DocumentSnapshot :=
  match s.get ref with
  | some f => .ok { ref := ref, fields := some f }
  | none => .error "rpc error: code = NotFound"

/-- Signed 64-bit wrap-around, the arithmetic of Go `int`. -/
def wrapInt64 (n : Int) : Int :=
  (n + 2 ^ 63) % 2 ^ 64 - 2 ^ 63

/-- Step 1 after the read: `docSnap.Data()["version"].(int64)`, 0 when the
document is missing, the key is absent or the value is not an integer. -/
def currentVersionOf (docSnap : DocumentSnapshot) : Int :=
  if docSnap.Exists then
    match docSnap.Data.lookup "version" with
    | some (.int v) => v
    | _ => 0
  else 0

/-- The map literal of step 4. -/
def historyData (model : Model) : Fields :=
  [ (accountIDField, .str model.AcctID),
    (CardNumberField, .str model.CardNumber),
    (OnlineServiceField, .strs model.OnlineService),
    (postedTimeField, .time model.PostedTime),
    (typeField, .str model.Type_) ]

/-- The `Sprintf("version_%d", newVersion)` key. -/
def historyKey (newVersion : Int) : String :=
  "version_" ++ toString newVersion

/-- The function passed to `RunTransaction`: the calls it makes on the
transaction, and the error it returns if any.  `now` is the reading of
`time.Now()`.  The two `tx.Set` calls are taken not to fail: a `Model` and the
history map always encode, and both follow the only read. -/
def upsertTxBody (s : Store) (now : Time) (id : String) (model : Model) :
    List StoreCall × Option String :=
  match txGet s (mainDocRef id) with
  | .error e => ([.txGet (mainDocRef id)], some ("failed to get main document " ++ e))
  | .ok docSnap =>
    let currentVersion := currentVersionOf docSnap
    let newVersion := wrapInt64 (currentVersion + 1)
    let model := { model with Version := currentVersion, LastUpdated := now }
    ([ .txGet (mainDocRef id),
       .txSetModel (mainDocRef id) model,
       .txSetMap (historyDocRef id (historyKey newVersion)) (historyData model) ],
     none)

/-- The effect of one buffered transaction write at commit. -/
def applyTxWrite (s : Store) : StoreCall → Store
  | .txSetModel ref m => s.set ref (modelFields m)
  | .txSetMap ref data => s.set ref data
  | _ => s

/-- The method itself.  With no concurrent writer the transaction body runs
once; its writes reach the store only if it returns no error. -/
def UpsertTransactionWithHistory (s : Store) (now : Time) (id : String) (model : Model) :
    Outcome Unit :=
  match upsertTxBody s now id model with
  | (calls, some e) =>
    { value := (), err := some ("failed to upsert transaction with history: " ++ e),
      calls := calls, store := s }
  | (calls, none) =>
    { value := (), err := none, calls := calls, store := calls.foldl applyTxWrite s }

/-- The plain upsert: `Doc(id).Set(ctx, model)`. -/
def UpsertTransaction (s : Store) (id : String) (model : Model) : Outcome Unit :=
  { value := (), err := none, calls := [.set (mainDocRef id) model],
    store := s.set (mainDocRef id) (modelFields model) }

/-! ## The rest of the client, taken as given

`DataTo`, query execution, the bulk writer's `Set` and `time.Parse` belong to
libraries outside the repository; the DAO is embedded over any behaviour they
may have. -/

/-- The library behaviour the DAO is parametrised by. -/
structure Externals where
  /-- The call `doc.DataTo(&model)` on a zero model: the model it leaves and its error. -/
  dataTo : Fields → Model × Option String
  /-- The items `query.Documents(ctx)` iterates over, each a document or an
  error; the end of the list is `iterator.Done`. -/
  documents : Store → List QueryOp → List (Except String Fields)
  /-- The error of `writer.Set(docRef, model)`, if any, given what the writer
  already buffers. -/
  bulkSetErr : List (DocPath × Model) → DocPath → Model → Option String
  /-- The buffered writes the bulk writer sends to the store by itself when its
  `Flush` is never called.  The library's writer sends every one of them, after
  about a second or as soon as twenty are buffered. -/
  bulkAutoSend : List (DocPath × Model) → List (DocPath × Model)
  /-- The call `time.Parse(time.RFC3339, s)`, a partial function on strings. -/
  parseRFC3339 : String → Except String Time

/-! ## GetTransaction, GetTransactionWithFields -/

/-- The call `docRef.Get(ctx)`: NotFound for a missing document. -/
def docGet (s : Store) (ref : DocPath) : Except String DocumentSnapshot :=
  match s.get ref with
  | some f => .ok { ref := ref, fields := some f }
  | none => .error "rpc error: code = NotFound"

def GetTransaction (x : Externals) (s : Store) (id : String) : Outcome Model :=
  let docRef := mainDocRef id
  match docGet s docRef with
  | .error e => { value := Model.zero, err := some e, calls := [.docGet docRef], store := s }
  | .ok doc =>
    match x.dataTo doc.Data with
    | (_, some e) => { value := Model.zero, err := some e, calls := [.docGet docRef], store := s }
    | (model, none) => { value := model, err := none, calls := [.docGet docRef], store := s }

/-- The validation loop of `GetTransactionWithFields`: the field it returns
the error for, if any. -/
def validateFields : List String → Option String
  | [] => none
  | field :: rest =>
    if !(transactionFields.contains field) then some field else validateFields rest

def GetTransactionWithFields (x : Externals) (s : Store) (id : String) (fields : List String) :
    Outcome Model :=
  if fields.length == 0 then GetTransaction x s id
  else
    match validateFields fields with
    | some field =>
      { value := Model.zero, err := some ("field " ++ field ++ " not found in accectable fields"),
        calls := [], store := s }
    | none =>
      let query : List QueryOp := [.filter "ID" comparison.OpEqual (.str id), .select fields]
      match x.documents s query with
      | [] =>
        { value := Model.zero, err := some ("item not found: \"" ++ id ++ "\" not found"),
          calls := [.query query], store := s }
      | .error e :: _ =>
        { value := Model.zero, err := some e, calls := [.query query], store := s }
      | .ok f :: _ =>
        match x.dataTo f with
        | (model, some e) => { value := model, err := some e, calls := [.query query], store := s }
        | (model, none) => { value := model, err := none, calls := [.query query], store := s }

/-! ## UpsertTransactions -/

/-- What `UpsertTransactions` leaves behind: besides the error, call log and
store, the writes it enqueued and returned without flushing (`pending`). -/
structure BulkOutcome where
  err : Option String
  calls : List StoreCall
  store : Store
  pending : List (DocPath × Model)

/-- The loop `for i, id := range ids`, from index `i` on, `buffer` being what
the writer holds and `calls` the log so far.  Returns the buffer, the log and
the error the loop returned with, if any.  `models[i]` is in range whenever
the lengths agree. -/
def bulkLoop (x : Externals) (models : List Model) :
    Nat → List String → List (DocPath × Model) → List StoreCall →
    List (DocPath × Model) × List StoreCall × Option String
  | _, [], buffer, calls => (buffer, calls, none)
  | i, id :: rest, buffer, calls =>
    let docRef := mainDocRef id
    let model := models.getD i Model.zero
    match x.bulkSetErr buffer docRef model with
    | some e => (buffer, calls ++ [.bulkSet docRef model], some e)
    | none => bulkLoop x models (i + 1) rest (buffer ++ [(docRef, model)])
        (calls ++ [.bulkSet docRef model])

/-- The effect of sending buffered writes: each reaches the store, in order.
`writer.Flush()` sends the whole buffer. -/
def flushBuffer (s : Store) (buffer : List (DocPath × Model)) : Store :=
  buffer.foldl (fun st w => st.set w.1 (modelFields w.2)) s

/-- The method itself.  When an enqueue fails it returns without calling
`Flush`; what the abandoned writer has buffered reaches the store only as far
as the writer sends it by itself (`bulkAutoSend`). -/
def UpsertTransactions (x : Externals) (s : Store) (ids : List String) (models : List Model) :
    BulkOutcome :=
  if ids.length != models.length then
    { err := some "the number of ids does not match the number of documents",
      calls := [], store := s, pending := [] }
  else
    match bulkLoop x models 0 ids [] [.newBulkWriter] with
    | (buffer, calls, some e) =>
      { err := some e, calls := calls, store := flushBuffer s (x.bulkAutoSend buffer),
        pending := buffer }
    | (buffer, calls, none) =>
      { err := none, calls := calls ++ [.bulkFlush], store := flushBuffer s buffer, pending := [] }

/-! ## SearchTransactions -/

/-- The method `query.Where(path, op, value)`. -/
def queryWhere (query : List QueryOp) (field op : String) (value : Value) : List QueryOp :=
  query ++ [.filter field op value]

/-- The method `query.Limit(n)`. -/
def queryLimit (query : List QueryOp) (n : Int) : List QueryOp :=
  query ++ [.limit n]

/-- The time-range block of `SearchTransactions`. -/
def searchTimeRange (x : Externals) (q : Query) (query : List QueryOp) :
    Except String (List QueryOp) :=
  if q.StartTime != "" && q.EndTime != "" then
    match x.parseRFC3339 q.StartTime with
    | .error e => .error ("invalid start time: " ++ e)
    | .ok startTime =>
      match x.parseRFC3339 q.EndTime with
      | .error e => .error ("invalid end time: " ++ e)
      | .ok endTime =>
        .ok (queryWhere
          (queryWhere query postedTimeField comparison.OpGreaterThanOrEqual (.time startTime))
          postedTimeField comparison.OpLessThan (.time endTime))
  else .ok query

/-- The query `SearchTransactions` has built when it reaches
`query.Documents(ctx)`, or the error it returned before. -/
def searchQuery (x : Externals) (q : Query) : Except String (List QueryOp) :=
  let query : List QueryOp := []
  let query :=
    if q.AcctId != "" then queryWhere query accountIDField comparison.OpEqual (.str q.AcctId)
    else query
  let query :=
    if q.Types.length > 0 then queryWhere query typeField comparison.OpIn (.strs q.Types)
    else query
  match searchTimeRange x q query with
  | .error e => .error e
  | .ok query =>
    let query := if q.Limit > 0 then queryLimit query q.Limit else query
    let query :=
      if q.OnlineService.length > 0 then
        queryWhere query onlineServiceField comparison.OpArrayContainsAny (.strs q.OnlineService)
      else query
    .ok query

/-- The loop draining the iterator into `results`. -/
def drainDocuments (x : Externals) :
    List (Except String Fields) → List Model → Except String (List Model)
  | [], results => .ok results
  | .error e :: _, _ => .error ("failed to iterate documents: " ++ e)
  | .ok f :: rest, results =>
    match x.dataTo f with
    | (_, some e) => .error ("failed to map document data: " ++ e)
    | (model, none) => drainDocuments x rest (results ++ [model])

def SearchTransactions (x : Externals) (s : Store) (q : Query) : Outcome (List Model) :=
  match searchQuery x q with
  | .error e => { value := [], err := some e, calls := [], store := s }
  | .ok query =>
    match drainDocuments x (x.documents s query) [] with
    | .error e => { value := [], err := some e, calls := [.query query], store := s }
    | .ok results => { value := results, err := none, calls := [.query query], store := s }

/-! ## Sequential runs and sample data -/

/-- Versioned upserts on one id, one after the other, each given its clock
reading and its model; the store after the last. -/
def runVersioned (s : Store) (id : String) : List (Time × Model) → Store
  | [] => s
  | (now, m) :: rest => runVersioned (UpsertTransactionWithHistory s now id m).store id rest

/-- The keys of the history entries stored under `id`. -/
def historyKeys (s : Store) (id : String) : List String :=
  s.filterMap fun e =>
    match e.1 with
    | [c, i, "history", key] => if c == transactionCollection && i == id then some key else none
    | _ => none

/-- The version the main document of `id` holds: its `Version` field, 0 when
the field is absent (which is how a zero version is persisted). -/
def storedVersion (s : Store) (id : String) : Option Int :=
  match s.get (mainDocRef id) with
  | none => none
  | some f =>
    match f.lookup VersionField with
    | some (.int v) => some v
    | _ => some 0

def sampleModel : Model :=
  { ID := "T1", AcctID := "A1", PostedTime := 5, CardNumber := "4111", OnlineService := ["A", "B"],
    Type_ := "PURCHASE", Version := 0, LastUpdated := 0 }

/-- A parser that reads two timestamps and rejects every other string. -/
def sampleParse (s : String) : Except String Time :=
  if s == "2024-01-01T00:00:00Z" then .ok 63839664000000000000
  else if s == "2024-01-02T00:00:00Z" then .ok 63839750400000000000
  else .error ("parsing time \"" ++ s ++ "\": cannot parse")

/-- A bulk writer whose `Set` rejects a path it already buffers, as the
library's does. -/
def sampleBulkSetErr (buffer : List (DocPath × Model)) (ref : DocPath) (_ : Model) :
    Option String :=
  if (buffer.map Prod.fst).contains ref then some "bulkwriter: duplicate write" else none

/-- A sample client library: no query results, the duplicate-rejecting bulk
writer, which like the library's sends everything it buffers by itself, and
the sample parser. -/
def sampleExternals : Externals :=
  { dataTo := fun _ => (Model.zero, none)
    documents := fun _ _ => []
    bulkSetErr := sampleBulkSetErr
    bulkAutoSend := fun buffer => buffer
    parseRFC3339 := sampleParse }

/-- The store after `UpsertTransaction "T1" sampleModel` on the empty store. -/
def sampleStore : Store :=
  (UpsertTransaction [] "T1" sampleModel).store

/-! ## Sample requests and stores, and the bulk loop over pairs -/

/-- A store whose main document for `T1` carries the lower-case `version` field
with the value 4, as a writer other than this DAO may leave it. -/
def versionedStore : Store :=
  [(mainDocRef "T1", [("version", .int 4), ("Type", .str "PURCHASE")])]

/-- As `versionedStore`, with the largest 64-bit version. -/
def maxVersionStore : Store :=
  [(mainDocRef "T1", [("version", .int 9223372036854775807)])]

/-- A request with no field set. -/
def emptyQuery : Query :=
  { AcctId := "", Types := [], OnlineService := [], StartTime := "", EndTime := "",
    Limit := 0, Offset := 0 }

/-- A request with every filter set, a valid time range and an offset. -/
def fullQuery : Query :=
  { AcctId := "A1", Types := ["PURCHASE", "REFUND"], OnlineService := ["A", "B"],
    StartTime := "2024-01-01T00:00:00Z", EndTime := "2024-01-02T00:00:00Z",
    Limit := 10, Offset := 3 }

/-- A request whose start bound is not a timestamp and whose end bound is empty. -/
def badStartQuery : Query :=
  { emptyQuery with StartTime := "not-a-time" }

/-- A request whose start bound parses and whose end bound does not. -/
def badEndQuery : Query :=
  { emptyQuery with StartTime := "2024-01-01T00:00:00Z", EndTime := "tomorrow" }

/-- The (reference, record) pairs `UpsertTransactions` goes through, in input order. -/
def bulkPairs (ids : List String) (models : List Model) : List (DocPath × Model) :=
  (ids.map mainDocRef).zip models

/-- The call-log entry of `writer.Set` on a pair. -/
def bulkSetCall (p : DocPath × Model) : StoreCall :=
  .bulkSet p.1 p.2

/-- The loop of `bulkLoop`, read over the list of pairs still to be enqueued;
`bulkLoop_eq_pairs` shows the two agree. -/
def bulkLoopPairs (x : Externals) :
    List (DocPath × Model) → List (DocPath × Model) → List StoreCall →
    List (DocPath × Model) × List StoreCall × Option String
  | [], buffer, calls => (buffer, calls, none)
  | p :: rest, buffer, calls =>
    match x.bulkSetErr buffer p.1 p.2 with
    | some e => (buffer, calls ++ [bulkSetCall p], some e)
    | none => bulkLoopPairs x rest (buffer ++ [p]) (calls ++ [bulkSetCall p])

/-! ## Lemmas on the store and on the encoding -/

theorem Store.get_set_self (s : Store) (p : DocPath) (f : Fields) :
    (s.set p f).get p = some f := by
  simp [Store.get, Store.set, List.lookup]

theorem Store.get_set_of_ne (s : Store) (p q : DocPath) (f : Fields) (h : q ≠ p) :
    (s.set p f).get q = s.get q := by
  have hqp : (q == p) = false := by simpa using h
  simp only [Store.get, Store.set, List.lookup, hqp]
  induction s with
  | nil => rfl
  | cons e rest ih =>
    obtain ⟨k, v⟩ := e
    by_cases hk : k = p
    · subst hk
      simp [List.filter, List.lookup, hqp, ih]
    · have hkp : (k == p) = false := by simpa using hk
      by_cases hq : q = k
      · subst hq
        simp [List.filter, List.lookup, hkp]
      · have hqk : (q == k) = false := by simpa using hq
        simp [List.filter, List.lookup, hkp, hqk, ih]

theorem lookup_omitEmpty_append (k key : String) (e : Bool) (v : Value) (rest : Fields)
    (h : k ≠ key) : (omitEmpty key e v ++ rest).lookup k = rest.lookup k := by
  have hk : (k == key) = false := by simpa using h
  cases e <;> simp [omitEmpty, List.lookup, hk]

theorem lookup_omitEmpty (k key : String) (e : Bool) (v : Value)
    (h : k ≠ key) : (omitEmpty key e v).lookup k = none := by
  have hk : (k == key) = false := by simpa using h
  cases e <;> simp [omitEmpty, List.lookup, hk]

/-- No encoded model has a field under the lower-case key `version`. -/
theorem lookup_version_modelFields (m : Model) : (modelFields m).lookup "version" = none := by
  unfold modelFields
  simp only [List.append_assoc]
  rw [lookup_omitEmpty_append _ _ _ _ _ (by decide), lookup_omitEmpty_append _ _ _ _ _ (by decide),
    lookup_omitEmpty_append _ _ _ _ _ (by decide), lookup_omitEmpty_append _ _ _ _ _ (by decide),
    lookup_omitEmpty_append _ _ _ _ _ (by decide), lookup_omitEmpty_append _ _ _ _ _ (by decide),
    lookup_omitEmpty_append _ _ _ _ _ (by decide), lookup_omitEmpty _ _ _ _ (by decide)]

theorem mainDocRef_ne_historyDocRef (id key : String) : mainDocRef id ≠ historyDocRef id key := by
  simp [mainDocRef, historyDocRef]

/-- The outcome of a versioned upsert when the main document exists with
field map `f`. -/
theorem upsert_of_get (s : Store) (now : Time) (id : String) (model : Model) (f : Fields)
    (h : s.get (mainDocRef id) = some f) :
    upsertTxBody s now id model =
      ([ .txGet (mainDocRef id),
         .txSetModel (mainDocRef id)
           { model with Version := currentVersionOf ⟨mainDocRef id, some f⟩, LastUpdated := now },
         .txSetMap
           (historyDocRef id
             (historyKey (wrapInt64 (currentVersionOf ⟨mainDocRef id, some f⟩ + 1))))
           (historyData model) ], none) := by
  simp [upsertTxBody, txGet, h, historyData]

/-- A main document written by the DAO stays one under a versioned upsert. -/
theorem upsert_store_main (s : Store) (now : Time) (id : String) (model : Model) (f : Fields)
    (h : s.get (mainDocRef id) = some f) :
    (UpsertTransactionWithHistory s now id model).store.get (mainDocRef id) =
      some (modelFields
        { model with Version := currentVersionOf ⟨mainDocRef id, some f⟩, LastUpdated := now }) := by
  simp only [UpsertTransactionWithHistory, upsert_of_get s now id model f h, List.foldl,
    applyTxWrite]
  rw [Store.get_set_of_ne _ _ _ _ (mainDocRef_ne_historyDocRef id _), Store.get_set_self]

theorem runVersioned_main (id : String) (prior : List (Time × Model)) :
    ∀ (s : Store) (m0 : Model), s.get (mainDocRef id) = some (modelFields m0) →
      ∃ m1, (runVersioned s id prior).get (mainDocRef id) = some (modelFields m1) := by
  induction prior with
  | nil => intro s m0 h; exact ⟨m0, h⟩
  | cons a rest ih =>
    intro s m0 h
    obtain ⟨now, m⟩ := a
    exact ih _ _ (upsert_store_main s now id m _ h)

theorem currentVersionOf_modelFields (ref : DocPath) (m : Model) :
    currentVersionOf ⟨ref, some (modelFields m)⟩ = 0 := by
  simp [currentVersionOf, DocumentSnapshot.Exists, DocumentSnapshot.Data,
    lookup_version_modelFields]

theorem wrapInt64_succ (v : Int) (hlo : -2 ^ 63 ≤ v) (hhi : v < 2 ^ 63 - 1) :
    wrapInt64 (v + 1) = v + 1 := by
  unfold wrapInt64
  have h1 : (0 : Int) ≤ v + 1 + 2 ^ 63 := by omega
  have h2 : v + 1 + 2 ^ 63 < 2 ^ 64 := by omega
  rw [Int.emod_eq_of_lt h1 h2]
  omega

/-- Whenever the main document of `id` is missing, the versioned upsert returns
an error after its read and writes nothing. -/
theorem upsert_missing_document (s : Store) (now : Time) (id : String) (model : Model)
    (h : s.get (mainDocRef id) = none) :
    (UpsertTransactionWithHistory s now id model).err =
      some ("failed to upsert transaction with history: " ++
        "failed to get main document rpc error: code = NotFound") ∧
    (UpsertTransactionWithHistory s now id model).calls = [.txGet (mainDocRef id)] ∧
    (UpsertTransactionWithHistory s now id model).store = s := by
  simp [UpsertTransactionWithHistory, upsertTxBody, txGet, h]

/-! ## Claims on UpsertTransactionWithHistory -/

/-- C1 (the code at a failing input): on a store where `T1` was created by
`UpsertTransaction` with version 0 and has no history, two versioned upserts
both commit, yet leave the single history entry `version_1`, no `version_2`,
and a main document whose stored version is 0 after the second call, where the
claim requires the entries `version_1, version_2` and the version 1. -/
theorem C1_two_upserts_leave_one_history_entry :
    historyKeys sampleStore "T1" = [] ∧
    storedVersion sampleStore "T1" = some 0 ∧
    (UpsertTransactionWithHistory sampleStore 7 "T1" sampleModel).err = none ∧
    (UpsertTransactionWithHistory
      (UpsertTransactionWithHistory sampleStore 7 "T1" sampleModel).store 8 "T1" sampleModel).err
      = none ∧
    historyKeys (runVersioned sampleStore "T1" [(7, sampleModel), (8, sampleModel)]) "T1"
      = ["version_1"] ∧
    (runVersioned sampleStore "T1" [(7, sampleModel), (8, sampleModel)]).get
      (historyDocRef "T1" "version_2") = none ∧
    storedVersion (runVersioned sampleStore "T1" [(7, sampleModel), (8, sampleModel)]) "T1"
      = some 0 := by
  decide

/-- C2 (the code at a failing input): on the empty store, where the main
document of `T1` does not exist and the transactional read reports NotFound,
the versioned upsert returns an error after that read, issues no write and
leaves the store empty, where the claim requires success, a main document with
version 0 and the history entry `version_1`. -/
theorem C2_missing_document_fails :
    txGet [] (mainDocRef "T1") = .error "rpc error: code = NotFound" ∧
    (UpsertTransactionWithHistory [] 7 "T1" sampleModel).err =
      some ("failed to upsert transaction with history: " ++
        "failed to get main document rpc error: code = NotFound") ∧
    (UpsertTransactionWithHistory [] 7 "T1" sampleModel).calls = [.txGet (mainDocRef "T1")] ∧
    (UpsertTransactionWithHistory [] 7 "T1" sampleModel).store = [] := by
  exact ⟨rfl, by decide, by decide, by decide⟩

/-- C3 (as stated, refuted): when the version read is the largest 64-bit
integer, the upsert succeeds and its history write is keyed
`version_-9223372036854775808`, not `version_` followed by the decimal of
v+1. -/
theorem C3_counterexample_max_version :
    currentVersionOf ⟨mainDocRef "T1", maxVersionStore.get (mainDocRef "T1")⟩
      = 9223372036854775807 ∧
    (UpsertTransactionWithHistory maxVersionStore 7 "T1" sampleModel).err = none ∧
    (UpsertTransactionWithHistory maxVersionStore 7 "T1" sampleModel).calls =
      [ .txGet (mainDocRef "T1"),
        .txSetModel (mainDocRef "T1")
          { sampleModel with Version := 9223372036854775807, LastUpdated := 7 },
        .txSetMap (historyDocRef "T1" "version_-9223372036854775808") (historyData sampleModel) ] ∧
    "version_-9223372036854775808" ≠ "version_" ++ toString ((9223372036854775807 : Int) + 1) := by
  decide

/-- C3 (amended): a successful versioned upsert of `m` found the main document,
read a current version `v` from it, and made exactly two writes after that
read: the main document overwritten with `m` whose `Version` is `v` and whose
`LastUpdated` is the clock reading, every other field as in `m`; and a history
document whose field map is the five entries account id, card number, online
services, posted time and type of the incoming `m`, with no version or
last-updated entry.  The history key is `version_` followed by the decimal of
`v+1` whenever `v` is a 64-bit integer below 2^63-1; at `v = 2^63-1` the sum
wraps and the key is `version_-9223372036854775808`. -/
theorem C3_two_writes (s : Store) (now : Time) (id : String) (m : Model)
    (hok : (UpsertTransactionWithHistory s now id m).err = none) :
    ∃ (f : Fields) (v : Int) (key : String),
      s.get (mainDocRef id) = some f ∧
      v = currentVersionOf ⟨mainDocRef id, some f⟩ ∧
      (UpsertTransactionWithHistory s now id m).calls =
        [ .txGet (mainDocRef id),
          .txSetModel (mainDocRef id)
            { ID := m.ID, AcctID := m.AcctID, PostedTime := m.PostedTime,
              CardNumber := m.CardNumber, OnlineService := m.OnlineService, Type_ := m.Type_,
              Version := v, LastUpdated := now },
          .txSetMap (historyDocRef id key)
            [ ("AcctID", .str m.AcctID), ("CardNumber", .str m.CardNumber),
              ("OnlineService", .strs m.OnlineService), ("PostedTime", .time m.PostedTime),
              ("Type", .str m.Type_) ] ] ∧
      (-2 ^ 63 ≤ v → v < 2 ^ 63 - 1 → key = "version_" ++ toString (v + 1)) ∧
      (v = 2 ^ 63 - 1 → key = "version_-9223372036854775808") ∧
      (historyData m).length = 5 ∧
      (historyData m).lookup "Version" = none ∧ (historyData m).lookup "version" = none ∧
      (historyData m).lookup "LastUpdated" = none ∧ (historyData m).lookup "lastUpdated" = none := by
  cases hget : s.get (mainDocRef id) with
  | none =>
    simp [UpsertTransactionWithHistory, upsertTxBody, txGet, hget] at hok
  | some f =>
    refine ⟨f, currentVersionOf ⟨mainDocRef id, some f⟩,
      historyKey (wrapInt64 (currentVersionOf ⟨mainDocRef id, some f⟩ + 1)), rfl, rfl, ?_, ?_, ?_,
      ?_, ?_, ?_, ?_, ?_⟩
    · simp only [UpsertTransactionWithHistory, upsert_of_get s now id m f hget]
      rfl
    · intro hlo hhi
      rw [wrapInt64_succ _ hlo hhi]
      rfl
    · intro hv
      rw [hv]
      decide
    · rfl
    · simp [historyData, List.lookup, accountIDField, CardNumberField, OnlineServiceField,
        postedTimeField, typeField]
    · simp [historyData, List.lookup, accountIDField, CardNumberField, OnlineServiceField,
        postedTimeField, typeField]
    · simp [historyData, List.lookup, accountIDField, CardNumberField, OnlineServiceField,
        postedTimeField, typeField]
    · simp [historyData, List.lookup, accountIDField, CardNumberField, OnlineServiceField,
        postedTimeField, typeField]

/-- C3 (amended) at a main document holding version 4: the main document is
written with version 4 and the history entry is keyed `version_5`. -/
theorem C3_two_writes_witness :
    (UpsertTransactionWithHistory versionedStore 7 "T1" sampleModel).err = none ∧
    (UpsertTransactionWithHistory versionedStore 7 "T1" sampleModel).calls =
      [ .txGet (mainDocRef "T1"),
        .txSetModel (mainDocRef "T1") { sampleModel with Version := 4, LastUpdated := 7 },
        .txSetMap (historyDocRef "T1" "version_5") (historyData sampleModel) ] ∧
    ∃ (f : Fields) (v : Int) (key : String),
      versionedStore.get (mainDocRef "T1") = some f ∧
      v = currentVersionOf ⟨mainDocRef "T1", some f⟩ ∧
      (UpsertTransactionWithHistory versionedStore 7 "T1" sampleModel).calls =
        [ .txGet (mainDocRef "T1"),
          .txSetModel (mainDocRef "T1")
            { ID := sampleModel.ID, AcctID := sampleModel.AcctID,
              PostedTime := sampleModel.PostedTime, CardNumber := sampleModel.CardNumber,
              OnlineService := sampleModel.OnlineService, Type_ := sampleModel.Type_,
              Version := v, LastUpdated := 7 },
          .txSetMap (historyDocRef "T1" key)
            [ ("AcctID", .str sampleModel.AcctID), ("CardNumber", .str sampleModel.CardNumber),
              ("OnlineService", .strs sampleModel.OnlineService),
              ("PostedTime", .time sampleModel.PostedTime), ("Type", .str sampleModel.Type_) ] ] ∧
      (-2 ^ 63 ≤ v → v < 2 ^ 63 - 1 → key = "version_" ++ toString (v + 1)) ∧
      (v = 2 ^ 63 - 1 → key = "version_-9223372036854775808") ∧
      (historyData sampleModel).length = 5 ∧
      (historyData sampleModel).lookup "Version" = none ∧
      (historyData sampleModel).lookup "version" = none ∧
      (historyData sampleModel).lookup "LastUpdated" = none ∧
      (historyData sampleModel).lookup "lastUpdated" = none :=
  ⟨by decide, by decide, C3_two_writes versionedStore 7 "T1" sampleModel (by decide)⟩

/-- C10: when the main document of `id` holds a field map written by this DAO
(the encoding of some model), then after any number of versioned upserts on
`id` the main document is again the encoding of a model, step 1 reads the
current version 0 from it, and the next versioned upsert succeeds, writes the
main document with version 0 (persisted without a `Version` field) and writes
the history key `version_1`. -/
theorem C10_versioned_upsert_reads_zero (s : Store) (id : String) (m0 : Model)
    (prior : List (Time × Model)) (now : Time) (m : Model)
    (h : s.get (mainDocRef id) = some (modelFields m0)) :
    (∃ m1, txGet (runVersioned s id prior) (mainDocRef id) =
        .ok ⟨mainDocRef id, some (modelFields m1)⟩ ∧
      currentVersionOf ⟨mainDocRef id, some (modelFields m1)⟩ = 0) ∧
    (UpsertTransactionWithHistory (runVersioned s id prior) now id m).err = none ∧
    (UpsertTransactionWithHistory (runVersioned s id prior) now id m).calls =
      [ .txGet (mainDocRef id),
        .txSetModel (mainDocRef id) { m with Version := 0, LastUpdated := now },
        .txSetMap (historyDocRef id "version_1") (historyData m) ] ∧
    (modelFields { m with Version := 0, LastUpdated := now }).lookup "Version" = none ∧
    (modelFields { m with Version := 0, LastUpdated := now }).lookup "version" = none := by
  obtain ⟨m1, hm1⟩ := runVersioned_main id prior s m0 h
  have hbody := upsert_of_get (runVersioned s id prior) now id m _ hm1
  rw [currentVersionOf_modelFields] at hbody
  refine ⟨⟨m1, ?_, currentVersionOf_modelFields _ _⟩, ?_, ?_, ?_, lookup_version_modelFields _⟩
  · simp [txGet, hm1]
  · simp only [UpsertTransactionWithHistory, hbody]
  · simp only [UpsertTransactionWithHistory, hbody]
    rfl
  · unfold modelFields
    simp only [List.append_assoc]
    rw [lookup_omitEmpty_append _ _ _ _ _ (by decide),
      lookup_omitEmpty_append _ _ _ _ _ (by decide),
      lookup_omitEmpty_append _ _ _ _ _ (by decide),
      lookup_omitEmpty_append _ _ _ _ _ (by decide),
      lookup_omitEmpty_append _ _ _ _ _ (by decide),
      lookup_omitEmpty_append _ _ _ _ _ (by decide)]
    simp [omitEmpty, List.lookup]

/-- C10 at the document created by `UpsertTransaction`, after two versioned
upserts: the third again writes version 0 and the key `version_1`. -/
theorem C10_versioned_upsert_reads_zero_witness :
    sampleStore.get (mainDocRef "T1") = some (modelFields sampleModel) ∧
    (UpsertTransactionWithHistory
      (runVersioned sampleStore "T1" [(7, sampleModel), (8, sampleModel)]) 9 "T1"
      sampleModel).calls =
      [ .txGet (mainDocRef "T1"),
        .txSetModel (mainDocRef "T1") { sampleModel with Version := 0, LastUpdated := 9 },
        .txSetMap (historyDocRef "T1" "version_1") (historyData sampleModel) ] :=
  ⟨by decide,
    (C10_versioned_upsert_reads_zero sampleStore "T1" sampleModel
      [(7, sampleModel), (8, sampleModel)] 9 sampleModel (by decide)).2.2.1⟩

/-! ## Claims on SearchTransactions -/

/-- The time-range block either leaves the query as it is (a bound is empty)
or appends the two `PostedTime` filters (both bounds are set and parse). -/
theorem searchTimeRange_ok (x : Externals) (q : Query) (query r : List QueryOp)
    (h : searchTimeRange x q query = .ok r) :
    ∃ timeOps : List QueryOp, r = query ++ timeOps ∧
      ((q.StartTime ≠ "" ∧ q.EndTime ≠ "") →
        ∃ startTime endTime, x.parseRFC3339 q.StartTime = .ok startTime ∧
          x.parseRFC3339 q.EndTime = .ok endTime ∧
          timeOps = [ .filter "PostedTime" ">=" (.time startTime),
                      .filter "PostedTime" "<" (.time endTime) ]) ∧
      (¬ (q.StartTime ≠ "" ∧ q.EndTime ≠ "") → timeOps = []) := by
  unfold searchTimeRange at h
  by_cases hc : q.StartTime ≠ "" ∧ q.EndTime ≠ ""
  · have hb : (q.StartTime != "" && q.EndTime != "") = true := by simpa using hc
    rw [if_pos hb] at h
    cases hs : x.parseRFC3339 q.StartTime with
    | error e => simp [hs] at h
    | ok startTime =>
      cases he : x.parseRFC3339 q.EndTime with
      | error e => simp [hs, he] at h
      | ok endTime =>
        simp only [hs, he, Except.ok.injEq] at h
        refine ⟨_, ?_, fun _ => ⟨startTime, endTime, rfl, rfl, rfl⟩, fun hn => absurd hc hn⟩
        rw [← h]
        simp [queryWhere, postedTimeField, comparison.OpGreaterThanOrEqual, comparison.OpLessThan]
  · have hb : ¬ (q.StartTime != "" && q.EndTime != "") = true := by simpa using hc
    rw [if_neg hb] at h
    refine ⟨[], ?_, fun hp => absurd hp hc, fun _ => rfl⟩
    simpa using (Except.ok.inj h).symm

/-- The query built is the time-range block applied to the account and type
filters, followed by the limit and the online-service filter. -/
theorem searchQuery_eq (x : Externals) (q : Query) :
    searchQuery x q =
      match searchTimeRange x q
        ((if q.AcctId ≠ "" then [QueryOp.filter "AcctID" "==" (.str q.AcctId)] else []) ++
         (if q.Types ≠ [] then [QueryOp.filter "Type" "in" (.strs q.Types)] else [])) with
      | .error e => .error e
      | .ok r => .ok (r ++ (if q.Limit > 0 then [QueryOp.limit q.Limit] else []) ++
          (if q.OnlineService ≠ [] then
            [QueryOp.filter "OnlineService" "array-contains-any" (.strs q.OnlineService)]
           else [])) := by
  have hT : (q.Types.length > 0) ↔ q.Types ≠ [] := List.length_pos
  have hO : (q.OnlineService.length > 0) ↔ q.OnlineService ≠ [] := List.length_pos
  unfold searchQuery
  simp only [queryWhere, queryLimit, accountIDField, typeField, onlineServiceField,
    comparison.OpEqual, comparison.OpIn, comparison.OpArrayContainsAny, List.nil_append, hT, hO,
    bne_iff_ne, ne_eq, ite_not]
  by_cases h1 : q.AcctId = "" <;> by_cases h2 : q.Types = [] <;> simp only [h1, h2, if_true,
    if_false, List.nil_append, List.append_nil, not_true_eq_false, not_false_eq_true] <;>
  (split <;> try rfl) <;>
  (by_cases h5 : q.Limit > 0 <;> by_cases h6 : q.OnlineService = [] <;>
    simp [h5, h6])

theorem searchTransactions_calls (x : Externals) (s : Store) (q : Query) (ops : List QueryOp)
    (h : searchQuery x q = .ok ops) : (SearchTransactions x s q).calls = [.query ops] := by
  unfold SearchTransactions
  rw [h]
  simp only
  split <;> rfl

/-- C4: when the build succeeds with the operations `ops`, these are, in this
order, the account equality filter (if `AcctId` is non-empty), the `in` filter
on the types (if `Types` is non-empty), the two `PostedTime` filters with the
parsed bounds (if both bounds are non-empty), the limit (if `Limit > 0`) and
the `array-contains-any` filter (if `OnlineService` is non-empty), and nothing
else; they are what the one store query is issued with; no single-value
`array-contains` filter occurs; and the same list is built for any `Offset`. -/
theorem C4_predicate_list (x : Externals) (s : Store) (q : Query) (ops : List QueryOp)
    (h : searchQuery x q = .ok ops) :
    (∃ timeOps : List QueryOp,
      ((q.StartTime ≠ "" ∧ q.EndTime ≠ "") →
        ∃ startTime endTime, x.parseRFC3339 q.StartTime = .ok startTime ∧
          x.parseRFC3339 q.EndTime = .ok endTime ∧
          timeOps = [ .filter "PostedTime" ">=" (.time startTime),
                      .filter "PostedTime" "<" (.time endTime) ]) ∧
      (¬ (q.StartTime ≠ "" ∧ q.EndTime ≠ "") → timeOps = []) ∧
      ops =
        (if q.AcctId ≠ "" then [QueryOp.filter "AcctID" "==" (.str q.AcctId)] else []) ++
        (if q.Types ≠ [] then [QueryOp.filter "Type" "in" (.strs q.Types)] else []) ++
        timeOps ++
        (if q.Limit > 0 then [QueryOp.limit q.Limit] else []) ++
        (if q.OnlineService ≠ [] then
          [QueryOp.filter "OnlineService" "array-contains-any" (.strs q.OnlineService)]
         else [])) ∧
    (SearchTransactions x s q).calls = [.query ops] ∧
    (∀ v, QueryOp.filter "OnlineService" "array-contains" v ∉ ops) ∧
    (∀ o, searchQuery x { q with Offset := o } = .ok ops) := by
  have hq := searchQuery_eq x q
  rw [h] at hq
  have hmain : ∃ timeOps : List QueryOp,
      ((q.StartTime ≠ "" ∧ q.EndTime ≠ "") →
        ∃ startTime endTime, x.parseRFC3339 q.StartTime = .ok startTime ∧
          x.parseRFC3339 q.EndTime = .ok endTime ∧
          timeOps = [ .filter "PostedTime" ">=" (.time startTime),
                      .filter "PostedTime" "<" (.time endTime) ]) ∧
      (¬ (q.StartTime ≠ "" ∧ q.EndTime ≠ "") → timeOps = []) ∧
      ops =
        (if q.AcctId ≠ "" then [QueryOp.filter "AcctID" "==" (.str q.AcctId)] else []) ++
        (if q.Types ≠ [] then [QueryOp.filter "Type" "in" (.strs q.Types)] else []) ++
        timeOps ++
        (if q.Limit > 0 then [QueryOp.limit q.Limit] else []) ++
        (if q.OnlineService ≠ [] then
          [QueryOp.filter "OnlineService" "array-contains-any" (.strs q.OnlineService)]
         else []) := by
    split at hq
    · exact absurd hq (by simp)
    · rename_i r hr
      obtain ⟨timeOps, hr', h1, h2⟩ := searchTimeRange_ok x q _ r hr
      refine ⟨timeOps, h1, h2, ?_⟩
      rw [Except.ok.inj hq, hr']
  refine ⟨hmain, ?_, ?_, ?_⟩
  · unfold SearchTransactions
    rw [h]
    simp only
    split <;> rfl
  · obtain ⟨timeOps, h1, h2, hops⟩ := hmain
    intro v hv
    rw [hops] at hv
    simp only [List.mem_append] at hv
    have htime : QueryOp.filter "OnlineService" "array-contains" v ∉ timeOps := by
      by_cases hc : q.StartTime ≠ "" ∧ q.EndTime ≠ ""
      · obtain ⟨a, b, _, _, ht⟩ := h1 hc
        rw [ht]
        simp
      · rw [h2 hc]
        simp
    rcases hv with (((hv | hv) | hv) | hv) | hv
    · split at hv <;> simp at hv
    · split at hv <;> simp at hv
    · exact htime hv
    · split at hv <;> simp at hv
    · split at hv <;> simp at hv
  · intro o
    rw [← h]
    rfl

/-- C4 at a request with every field set and at one with only the online
services `A`, `B` set. -/
theorem C4_predicate_list_witness :
    searchQuery sampleExternals fullQuery =
      .ok [ .filter "AcctID" "==" (.str "A1"),
            .filter "Type" "in" (.strs ["PURCHASE", "REFUND"]),
            .filter "PostedTime" ">=" (.time 63839664000000000000),
            .filter "PostedTime" "<" (.time 63839750400000000000),
            .limit 10,
            .filter "OnlineService" "array-contains-any" (.strs ["A", "B"]) ] ∧
    (SearchTransactions sampleExternals [] fullQuery).calls =
      [ .query [ .filter "AcctID" "==" (.str "A1"),
            .filter "Type" "in" (.strs ["PURCHASE", "REFUND"]),
            .filter "PostedTime" ">=" (.time 63839664000000000000),
            .filter "PostedTime" "<" (.time 63839750400000000000),
            .limit 10,
            .filter "OnlineService" "array-contains-any" (.strs ["A", "B"]) ] ] :=
  ⟨rfl, (C4_predicate_list sampleExternals [] fullQuery _ rfl).2.1⟩

/-- C5: when `StartTime` or `EndTime` is empty, whatever the other holds, the
build succeeds, the operations built contain no filter on `PostedTime`, and
they are what the store query is issued with. -/
theorem C5_no_time_predicate (x : Externals) (s : Store) (q : Query)
    (h : q.StartTime = "" ∨ q.EndTime = "") :
    ∃ ops, searchQuery x q = .ok ops ∧
      (∀ op v, QueryOp.filter "PostedTime" op v ∉ ops) ∧
      (SearchTransactions x s q).calls = [.query ops] := by
  have hc : ¬ (q.StartTime ≠ "" ∧ q.EndTime ≠ "") := by
    rintro ⟨h1, h2⟩
    rcases h with h | h
    · exact h1 h
    · exact h2 h
  have hb : ¬ (q.StartTime != "" && q.EndTime != "") = true := by simpa using hc
  have hq := searchQuery_eq x q
  simp only [searchTimeRange, if_neg hb] at hq
  refine ⟨_, hq, ?_, ?_⟩
  · intro op v hv
    simp only [List.mem_append] at hv
    rcases hv with ((hv | hv) | hv) | hv <;> split at hv <;> simp at hv
  · have hcalls := (searchTransactions_calls x s q _ hq)
    exact hcalls

/-- C5 at a request with only a start bound, one that is not a timestamp. -/
theorem C5_no_time_predicate_witness :
    (badStartQuery.StartTime = "" ∨ badStartQuery.EndTime = "") ∧
    searchQuery sampleExternals badStartQuery = .ok [] ∧
    ∃ ops, searchQuery sampleExternals badStartQuery = .ok ops ∧
      (∀ op v, QueryOp.filter "PostedTime" op v ∉ ops) ∧
      (SearchTransactions sampleExternals [] badStartQuery).calls = [.query ops] :=
  ⟨Or.inr rfl, rfl, C5_no_time_predicate sampleExternals [] badStartQuery (Or.inr rfl)⟩

/-- C6 (as stated, refuted): a start bound that fails to parse, with the end
bound left empty, fails nothing: the search issues its store query and returns
no error. -/
theorem C6_counterexample_unparsed_bound_ignored :
    sampleExternals.parseRFC3339 badStartQuery.StartTime =
      .error "parsing time \"not-a-time\": cannot parse" ∧
    (SearchTransactions sampleExternals [] badStartQuery).err = none ∧
    (SearchTransactions sampleExternals [] badStartQuery).calls = [.query []] := by
  exact ⟨rfl, by decide, by decide⟩

/-- C6 (amended): when both time bounds are non-empty, a start bound that fails
to parse makes the search return the error `invalid start time: ...` carrying
the parse error, and a start bound that parses with an end bound that fails to
parse makes it return `invalid end time: ...`; in both cases no results are
returned, no store query is issued and the store is untouched. -/
theorem C6_malformed_bound_fails (x : Externals) (s : Store) (q : Query)
    (hs : q.StartTime ≠ "") (he : q.EndTime ≠ "") :
    (∀ e, x.parseRFC3339 q.StartTime = .error e →
      (SearchTransactions x s q).err = some ("invalid start time: " ++ e) ∧
      (SearchTransactions x s q).value = [] ∧
      (SearchTransactions x s q).calls = [] ∧
      (SearchTransactions x s q).store = s) ∧
    (∀ t e, x.parseRFC3339 q.StartTime = .ok t → x.parseRFC3339 q.EndTime = .error e →
      (SearchTransactions x s q).err = some ("invalid end time: " ++ e) ∧
      (SearchTransactions x s q).value = [] ∧
      (SearchTransactions x s q).calls = [] ∧
      (SearchTransactions x s q).store = s) := by
  have hb : (q.StartTime != "" && q.EndTime != "") = true := by simpa using ⟨hs, he⟩
  constructor
  · intro e hp
    have hq : searchQuery x q = .error ("invalid start time: " ++ e) := by
      rw [searchQuery_eq]
      simp only [searchTimeRange, if_pos hb, hp]
    simp only [SearchTransactions, hq, and_self]
  · intro t e hp1 hp2
    have hq : searchQuery x q = .error ("invalid end time: " ++ e) := by
      rw [searchQuery_eq]
      simp only [searchTimeRange, if_pos hb, hp1, hp2]
    simp only [SearchTransactions, hq, and_self]

/-- C6 (amended) at a request with a valid start and a malformed end bound. -/
theorem C6_malformed_bound_fails_witness :
    badEndQuery.StartTime ≠ "" ∧ badEndQuery.EndTime ≠ "" ∧
    sampleExternals.parseRFC3339 badEndQuery.StartTime = .ok 63839664000000000000 ∧
    sampleExternals.parseRFC3339 badEndQuery.EndTime =
      .error "parsing time \"tomorrow\": cannot parse" ∧
    (SearchTransactions sampleExternals sampleStore badEndQuery).err =
      some ("invalid end time: " ++ "parsing time \"tomorrow\": cannot parse") ∧
    (SearchTransactions sampleExternals sampleStore badEndQuery).value = [] ∧
    (SearchTransactions sampleExternals sampleStore badEndQuery).calls = [] ∧
    (SearchTransactions sampleExternals sampleStore badEndQuery).store = sampleStore :=
  ⟨by decide, by decide, rfl, rfl,
    (C6_malformed_bound_fails sampleExternals sampleStore badEndQuery (by decide) (by decide)).2
      _ _ rfl rfl⟩

/-! ## Claims on GetTransactionWithFields -/

/-- The validation loop returns the first field outside the allow-list. -/
theorem validateFields_of_exists (fields : List String)
    (h : ∃ f ∈ fields, f ∉ transactionFields) :
    ∃ pre bad post, fields = pre ++ bad :: post ∧ (∀ f ∈ pre, f ∈ transactionFields) ∧
      bad ∉ transactionFields ∧ validateFields fields = some bad := by
  induction fields with
  | nil => obtain ⟨f, hf, _⟩ := h; cases hf
  | cons a rest ih =>
    by_cases ha : a ∈ transactionFields
    · have hrest : ∃ f ∈ rest, f ∉ transactionFields := by
        obtain ⟨f, hf, hn⟩ := h
        rcases List.mem_cons.mp hf with rfl | hf
        · exact absurd ha hn
        · exact ⟨f, hf, hn⟩
      obtain ⟨pre, bad, post, hsplit, hpre, hbad, hv⟩ := ih hrest
      refine ⟨a :: pre, bad, post, by rw [hsplit]; rfl, ?_, hbad, ?_⟩
      · intro f hf
        rcases List.mem_cons.mp hf with rfl | hf
        · exact ha
        · exact hpre f hf
      · have hc : transactionFields.contains a = true := by simpa using ha
        rw [validateFields, hc]
        simpa using hv
    · have hc : transactionFields.contains a = false := by simpa using ha
      refine ⟨[], a, rest, rfl, ?_, ha, ?_⟩
      · intro f hf
        cases hf
      · rw [validateFields, hc]
        rfl

/-- C7: when the field list holds a name outside the allow-list, then for the
first such name `bad` and for every store, with or without a document for
`id`, `GetTransactionWithFields` returns the error naming `bad` and the zero
record, makes no call on the store and leaves it as it was. -/
theorem C7_unknown_field_rejected (x : Externals) (id : String) (fields : List String)
    (h : ∃ f ∈ fields, f ∉ transactionFields) :
    transactionFields = ["AcctID", "CardNumber", "OnlineService", "PostedTime", "Type"] ∧
    ∃ pre bad post, fields = pre ++ bad :: post ∧ (∀ f ∈ pre, f ∈ transactionFields) ∧
      bad ∉ transactionFields ∧
      ∀ s : Store,
        (GetTransactionWithFields x s id fields).err =
          some ("field " ++ bad ++ " not found in accectable fields") ∧
        (GetTransactionWithFields x s id fields).value = Model.zero ∧
        (GetTransactionWithFields x s id fields).calls = [] ∧
        (GetTransactionWithFields x s id fields).store = s := by
  obtain ⟨pre, bad, post, hsplit, hpre, hbad, hv⟩ := validateFields_of_exists fields h
  refine ⟨rfl, pre, bad, post, hsplit, hpre, hbad, fun s => ?_⟩
  have hlen : (fields.length == 0) = false := by
    rw [hsplit]
    simp
  simp only [GetTransactionWithFields, hlen, hv, and_self]
  simp

/-- C7 at the field list `AcctID, Bogus, Nope`, on a store that has the
document and on the empty store. -/
theorem C7_unknown_field_rejected_witness :
    (∃ f ∈ ["AcctID", "Bogus", "Nope"], f ∉ transactionFields) ∧
    (GetTransactionWithFields sampleExternals sampleStore "T1" ["AcctID", "Bogus", "Nope"]).err =
      some "field Bogus not found in accectable fields" ∧
    (GetTransactionWithFields sampleExternals [] "T1" ["AcctID", "Bogus", "Nope"]).err =
      some "field Bogus not found in accectable fields" ∧
    (∃ pre bad post, ["AcctID", "Bogus", "Nope"] = pre ++ bad :: post ∧
      (∀ f ∈ pre, f ∈ transactionFields) ∧ bad ∉ transactionFields ∧
      ∀ s : Store,
        (GetTransactionWithFields sampleExternals s "T1" ["AcctID", "Bogus", "Nope"]).err =
          some ("field " ++ bad ++ " not found in accectable fields") ∧
        (GetTransactionWithFields sampleExternals s "T1" ["AcctID", "Bogus", "Nope"]).value =
          Model.zero ∧
        (GetTransactionWithFields sampleExternals s "T1" ["AcctID", "Bogus", "Nope"]).calls = [] ∧
        (GetTransactionWithFields sampleExternals s "T1" ["AcctID", "Bogus", "Nope"]).store = s) :=
  ⟨⟨"Bogus", by decide, by decide⟩, by decide, by decide,
    (C7_unknown_field_rejected sampleExternals "T1" ["AcctID", "Bogus", "Nope"]
      ⟨"Bogus", by decide, by decide⟩).2⟩

/-! ## Claims on UpsertTransactions -/

/-- C8: when the two lists differ in length, `UpsertTransactions` returns the
mismatch error, makes no call on the client (no bulk writer is created,
nothing is enqueued, nothing is flushed), leaves nothing buffered and leaves
the store as it was. -/
theorem C8_length_mismatch (x : Externals) (s : Store) (ids : List String) (models : List Model)
    (h : ids.length ≠ models.length) :
    (UpsertTransactions x s ids models).err =
      some "the number of ids does not match the number of documents" ∧
    (UpsertTransactions x s ids models).calls = [] ∧
    (UpsertTransactions x s ids models).pending = [] ∧
    (UpsertTransactions x s ids models).store = s := by
  have hb : (ids.length != models.length) = true := by simpa using h
  simp [UpsertTransactions, hb]

/-- C8 at two ids and one record. -/
theorem C8_length_mismatch_witness :
    ["T1", "T2"].length ≠ [sampleModel].length ∧
    (UpsertTransactions sampleExternals sampleStore ["T1", "T2"] [sampleModel]).err =
      some "the number of ids does not match the number of documents" ∧
    (UpsertTransactions sampleExternals sampleStore ["T1", "T2"] [sampleModel]).calls = [] ∧
    (UpsertTransactions sampleExternals sampleStore ["T1", "T2"] [sampleModel]).pending = [] ∧
    (UpsertTransactions sampleExternals sampleStore ["T1", "T2"] [sampleModel]).store =
      sampleStore :=
  ⟨by decide, C8_length_mismatch sampleExternals sampleStore ["T1", "T2"] [sampleModel] (by decide)⟩

theorem bulkLoop_eq_pairs (x : Externals) (models : List Model) :
    ∀ (rest : List String) (i : Nat) (buffer : List (DocPath × Model)) (calls : List StoreCall),
      i + rest.length = models.length →
      bulkLoop x models i rest buffer calls =
        bulkLoopPairs x ((rest.map mainDocRef).zip (models.drop i)) buffer calls := by
  intro rest
  induction rest with
  | nil => intro i buffer calls _; simp [bulkLoop, bulkLoopPairs]
  | cons id rest ih =>
    intro i buffer calls hlen
    have hi : i < models.length := by
      simp only [List.length_cons] at hlen
      omega
    have hdrop : models.drop i = models.getD i Model.zero :: models.drop (i + 1) := by
      rw [List.getD_eq_getElem _ _ hi]
      exact List.drop_eq_getElem_cons hi
    have hlen' : (i + 1) + rest.length = models.length := by
      simp only [List.length_cons] at hlen
      omega
    rw [hdrop]
    simp only [List.map_cons, List.zip_cons_cons, bulkLoop, bulkLoopPairs, bulkSetCall]
    cases hset : x.bulkSetErr buffer (mainDocRef id) (models.getD i Model.zero) with
    | some e => rfl
    | none => exact ih (i + 1) _ _ hlen'

/-- The loop stops at the first pair whose enqueue fails. -/
theorem bulkLoopPairs_fail (x : Externals) :
    ∀ (ps buffer : List (DocPath × Model)) (calls : List StoreCall) (k : Nat) (e : String)
      (p : DocPath × Model),
      ps[k]? = some p →
      (∀ j q, j < k → ps[j]? = some q → x.bulkSetErr (buffer ++ ps.take j) q.1 q.2 = none) →
      x.bulkSetErr (buffer ++ ps.take k) p.1 p.2 = some e →
      bulkLoopPairs x ps buffer calls =
        (buffer ++ ps.take k, calls ++ (ps.take (k + 1)).map bulkSetCall, some e) := by
  intro ps
  induction ps with
  | nil => intro buffer calls k e p hp; simp at hp
  | cons a rest ih =>
    intro buffer calls k e p hp hprev hfail
    cases k with
    | zero =>
      simp only [List.getElem?_cons_zero, Option.some.injEq] at hp
      subst hp
      simp only [List.take_zero, List.append_nil] at hfail
      simp [bulkLoopPairs, hfail]
    | succ k =>
      simp only [List.getElem?_cons_succ] at hp
      have h0 : x.bulkSetErr buffer a.1 a.2 = none := by
        simpa using hprev 0 a (Nat.succ_pos k) (by simp)
      have hprev' : ∀ j q, j < k → rest[j]? = some q →
          x.bulkSetErr ((buffer ++ [a]) ++ rest.take j) q.1 q.2 = none := by
        intro j q hj hq
        have := hprev (j + 1) q (Nat.succ_lt_succ hj) (by simpa using hq)
        simpa using this
      have hfail' : x.bulkSetErr ((buffer ++ [a]) ++ rest.take k) p.1 p.2 = some e := by
        simpa using hfail
      simp only [bulkLoopPairs, h0]
      rw [ih (buffer ++ [a]) (calls ++ [bulkSetCall a]) k e p hp hprev' hfail']
      simp

/-- The loop enqueues every pair when no enqueue fails. -/
theorem bulkLoopPairs_ok (x : Externals) :
    ∀ (ps buffer : List (DocPath × Model)) (calls : List StoreCall),
      (∀ j q, ps[j]? = some q → x.bulkSetErr (buffer ++ ps.take j) q.1 q.2 = none) →
      bulkLoopPairs x ps buffer calls = (buffer ++ ps, calls ++ ps.map bulkSetCall, none) := by
  intro ps
  induction ps with
  | nil => intro buffer calls _; simp [bulkLoopPairs]
  | cons a rest ih =>
    intro buffer calls hall
    have h0 : x.bulkSetErr buffer a.1 a.2 = none := by
      simpa using hall 0 a (by simp)
    have hall' : ∀ j q, rest[j]? = some q →
        x.bulkSetErr ((buffer ++ [a]) ++ rest.take j) q.1 q.2 = none := by
      intro j q hq
      have := hall (j + 1) q (by simpa using hq)
      simpa using this
    simp only [bulkLoopPairs, h0]
    rw [ih (buffer ++ [a]) (calls ++ [bulkSetCall a]) hall']
    simp

/-- The outcome of `UpsertTransactions` on lists of equal length, with `ps` the
(reference, record) pairs in input order.  If the enqueue of pair `k` fails
with `e` and every earlier enqueue succeeded, the method returns `e`, its calls
are the creation of the writer followed by the enqueues of the pairs `0..k` in
order and nothing else, so no flush, and the store receives what the writer
sends by itself out of the pairs `0..k-1`.  If no enqueue fails, its calls are
the creation of the writer, the enqueue of every pair once in input order, and
then one flush, which is the last call, and no error is returned. -/
theorem upsertTransactions_outcome (x : Externals) (s : Store) (ids : List String)
    (models : List Model) (hlen : ids.length = models.length) :
    (∀ (k : Nat) (e : String) (p : DocPath × Model),
      (bulkPairs ids models)[k]? = some p →
      (∀ j q, j < k → (bulkPairs ids models)[j]? = some q →
        x.bulkSetErr ((bulkPairs ids models).take j) q.1 q.2 = none) →
      x.bulkSetErr ((bulkPairs ids models).take k) p.1 p.2 = some e →
      (UpsertTransactions x s ids models).err = some e ∧
      (UpsertTransactions x s ids models).calls =
        .newBulkWriter :: ((bulkPairs ids models).take (k + 1)).map bulkSetCall ∧
      StoreCall.bulkFlush ∉ (UpsertTransactions x s ids models).calls ∧
      (UpsertTransactions x s ids models).pending = (bulkPairs ids models).take k ∧
      (UpsertTransactions x s ids models).store =
        flushBuffer s (x.bulkAutoSend ((bulkPairs ids models).take k))) ∧
    ((∀ j q, (bulkPairs ids models)[j]? = some q →
        x.bulkSetErr ((bulkPairs ids models).take j) q.1 q.2 = none) →
      (UpsertTransactions x s ids models).err = none ∧
      (UpsertTransactions x s ids models).calls =
        .newBulkWriter :: (bulkPairs ids models).map bulkSetCall ++ [.bulkFlush] ∧
      ((bulkPairs ids models).map bulkSetCall).count .bulkFlush = 0 ∧
      (UpsertTransactions x s ids models).pending = [] ∧
      (UpsertTransactions x s ids models).store = flushBuffer s (bulkPairs ids models)) := by
  have hb : (ids.length != models.length) = false := by simpa using hlen
  have hloop : bulkLoop x models 0 ids [] [.newBulkWriter] =
      bulkLoopPairs x (bulkPairs ids models) [] [.newBulkWriter] := by
    rw [bulkLoop_eq_pairs x models ids 0 [] _ (by omega)]
    rfl
  have hnoflush : ∀ l : List (DocPath × Model), StoreCall.bulkFlush ∉ l.map bulkSetCall := by
    intro l hmem
    obtain ⟨q, _, hq⟩ := List.mem_map.mp hmem
    simp [bulkSetCall] at hq
  constructor
  · intro k e p hp hprev hfail
    have hres := bulkLoopPairs_fail x (bulkPairs ids models) [] [.newBulkWriter] k e p hp
      hprev hfail
    simp only [UpsertTransactions, hb, hloop, hres]
    refine ⟨rfl, by simp, ?_, by simp, by simp⟩
    simp only [Bool.false_eq_true, if_false, List.singleton_append, List.mem_cons, not_or]
    exact ⟨by simp, hnoflush _⟩
  · intro hall
    have hres := bulkLoopPairs_ok x (bulkPairs ids models) [] [.newBulkWriter] hall
    simp only [UpsertTransactions, hb, hloop, hres]
    refine ⟨rfl, by simp, ?_, rfl, by simp⟩
    exact List.count_eq_zero.mpr (hnoflush _)

/-- C9 (the code at a failing input): on the empty store, with four pairs whose
third repeats the path of the first, the third enqueue is the first to fail;
`UpsertTransactions` returns that error, enqueues nothing after it and never
calls flush, yet the writer it abandons sends the two pairs already enqueued,
so the documents `a` and `b` are in the store, where the claim requires them
to be left un-flushed. -/
theorem C9_abandoned_writes_reach_store :
    (UpsertTransactions sampleExternals [] ["a", "b", "a", "c"]
      [sampleModel, sampleModel, sampleModel, sampleModel]).err
      = some "bulkwriter: duplicate write" ∧
    (UpsertTransactions sampleExternals [] ["a", "b", "a", "c"]
      [sampleModel, sampleModel, sampleModel, sampleModel]).calls =
      [ .newBulkWriter, .bulkSet (mainDocRef "a") sampleModel,
        .bulkSet (mainDocRef "b") sampleModel, .bulkSet (mainDocRef "a") sampleModel ] ∧
    StoreCall.bulkFlush ∉ (UpsertTransactions sampleExternals [] ["a", "b", "a", "c"]
      [sampleModel, sampleModel, sampleModel, sampleModel]).calls ∧
    (UpsertTransactions sampleExternals [] ["a", "b", "a", "c"]
      [sampleModel, sampleModel, sampleModel, sampleModel]).pending =
      [(mainDocRef "a", sampleModel), (mainDocRef "b", sampleModel)] ∧
    (UpsertTransactions sampleExternals [] ["a", "b", "a", "c"]
      [sampleModel, sampleModel, sampleModel, sampleModel]).store.get (mainDocRef "a") =
      some (modelFields sampleModel) ∧
    (UpsertTransactions sampleExternals [] ["a", "b", "a", "c"]
      [sampleModel, sampleModel, sampleModel, sampleModel]).store.get (mainDocRef "b") =
      some (modelFields sampleModel) ∧
    (UpsertTransactions sampleExternals [] ["a", "b", "a", "c"]
      [sampleModel, sampleModel, sampleModel, sampleModel]).store.get (mainDocRef "c") =
      none := by
  decide

end FirestorePOC
